import Mathlib

/-!
# Audit trail and fallback read path of the KV store

A shallow embedding of

* `agent/consul/audit.go`  (`getVersion`, `deleteKVTree`, `deleteKV`, `changeKV`, `LogKVChange`),
* `agent/dbfallback.go`    (`IsAuditorOpen`, `GetKV`, `OpenAuditor`, `CloseAuditor`),
* `agent/kvs_endpoint.go`  (`KVSGet`, `KVSGetKeys`, `missingKey`),
* `agent/structs/errors.go` (`errNoServers`).

The relational table `kv` is a list of rows in insertion order.  The SQL
statements of the source are evaluated over that list: `WHERE` is a filter,
`MAX` an optional maximum (`NULL` on no rows), `UPDATE .. SET deleted = 1` a
map, `INSERT` an append.  String comparison in `WHERE` is exact equality.
Whatever the database driver may do independently of the table contents (a
query that fails, a statement that cannot be prepared, the reported number of
affected rows) is an explicit input of the operation (`Faults`).  A Go panic is
an explicit outcome (`GoResult.panic`).  Versions are unbounded integers and
`version++` is `v + 1`: this is the increment of the 64-bit Go `int`
(`Consul.goIncr`) for every stored version below `2^63 - 1`; at `2^63 - 1` the
Go `int` wraps to `-2^63`.  A statement about `getVersion` over arbitrary
tables carries that bound.
-/

namespace Audit

/-! ## Data model -/

/-- One row of table `kv`.  The columns are those of the `insert` statement of
`changeKV` together with `deleted` (written by `deleteKV`) and `regex` (read by
`GetKV`).  `kvvalue` holds the bytes of the value. -/
structure Row where
  timestamp : Nat
  createIndex : Nat
  flags : Nat
  kvkey : String
  lockIndex : Nat
  modifyIndex : Nat
  session : String
  kvvalue : String
  version : Int
  datacenter : String
  acl : String
  deleted : Bool
  regex : Option String
deriving DecidableEq, Repr

/-- Contents of table `kv`, oldest insertion first. -/
abbrev Table := List Row

/-- The fields of `structs.DirEntry` that the audit code reads or writes. -/
structure DirEntry where
  LockIndex : Nat
  Key : String
  Flags : Nat
  Value : String
  Session : String
  RegEx : String
  CreateIndex : Nat
  ModifyIndex : Nat
deriving DecidableEq, Repr

/-- Zero value `structs.DirEntry{}`. -/
def DirEntry.zero : DirEntry :=
  { LockIndex := 0, Key := "", Flags := 0, Value := "", Session := "", RegEx := "",
    CreateIndex := 0, ModifyIndex := 0 }

/-- The operation codes of `api.KVOp` that `KVSPut` and `KVSDelete` produce. -/
inductive KVOp where
  | KVSet
  | KVDelete
  | KVDeleteCAS
  | KVDeleteTree
  | KVCAS
  | KVLock
  | KVUnlock
deriving DecidableEq, Repr

/-- The fields of `structs.KVSRequest` used by the audit code. -/
structure KVSRequest where
  Datacenter : String
  Op : KVOp
  DirEnt : DirEntry
  Token : String
deriving DecidableEq, Repr

/-- Outcome of a Go call: it returns, or the goroutine panics. -/
inductive GoResult (α : Type) where
  | ret (v : α)
  | panic (msg : String)
deriving DecidableEq, Repr

/-- Message of the runtime panic raised by a method call through a nil pointer
or nil interface. -/
def nilDeref : String := "runtime error: invalid memory address or nil pointer dereference"

/-! ## SQL helpers -/

/-- Aggregate `MAX(..)`: `NULL` (`none`) over no rows. -/
def sqlMax : List Int → Option Int
  | [] => none
  | x :: xs =>
    match sqlMax xs with
    | none => some x
    | some m => some (max x m)

/-- Go `strings.Contains` on character lists. -/
def containsChars : List Char → List Char → Bool
  | [], sub => sub.isEmpty
  | c :: s, sub => sub.isPrefixOf (c :: s) || containsChars s sub

/-- Go `strings.Contains`. -/
def stringsContains (s sub : String) : Bool :=
  containsChars s.toList sub.toList

/-- The error of `rows.Scan(&version)` when the column is `NULL`: the driver
value `nil` cannot be converted to an `int`.  The text is that of the
`database/sql` release the code was written against, the one `getVersion`
tests for. -/
def scanNullErr : String :=
  "sql: Scan error on column index 0: converting driver.Value type <nil> (\"<nil>\") to a int: invalid syntax"

/-- All suffixes of a character list, longest first, the empty one included. -/
def suffixes : List Char → List (List Char)
  | [] => [[]]
  | c :: cs => (c :: cs) :: suffixes cs

/-- SQL `LIKE` on character lists, pattern first: `%` matches any run of
characters, `_` any one character, every other character itself.  (The
bracket classes of T-SQL and the quoting of the string literal around the
pattern are outside this model; see `likeLiteral`.) -/
def sqlLike : List Char → List Char → Bool
  | [], s => s.isEmpty
  | p :: ps, s =>
    if p = '%' then
      (suffixes s).any (fun t => sqlLike ps t)
    else
      match s with
      | [] => false
      | c :: cs => (p = '_' || p = c) && sqlLike ps cs

/-- The `WHERE kvkey like '<key>%'` test of `deleteKVTree`: the key is pasted
into the statement text in front of `%`, so its own characters are read as
pattern characters. -/
def likeLiteral (key : String) (kvkey : String) : Bool :=
  sqlLike (key.toList ++ ['%']) kvkey.toList

/-- Insert `r` into a list ordered by `timestamp` descending, after the rows
with the same timestamp. -/
def insertByTimestampDesc (r : Row) : List Row → List Row
  | [] => [r]
  | x :: xs => if r.timestamp > x.timestamp then r :: x :: xs else x :: insertByTimestampDesc r xs

/-- `ORDER BY timestamp DESC`. -/
def orderByTimestampDesc : List Row → List Row
  | [] => []
  | r :: rs => insertByTimestampDesc r (orderByTimestampDesc rs)

/-! ## `agent/consul/audit.go` -/

namespace Consul

/-- What the driver does on the statements of one call, independently of the
table contents: `db.Query` failing, `rows.Scan` failing for a reason other
than the conversion of `NULL`, `db.Prepare` failing, `Exec` failing, and what
`RowsAffected` reports after an `Exec` that went through. -/
structure Faults where
  queryErr : Option String
  scanErr : Option String
  prepareErr : Option String
  execErr : Option String
  rowsAffected : Except String Int

/-- The driver without failures: one row affected per insert. -/
def Faults.none : Faults :=
  { queryErr := Option.none, scanErr := Option.none, prepareErr := Option.none,
    execErr := Option.none, rowsAffected := Except.ok 1 }

/-- The cell of `select max(version) from kv where kvkey = ? and datacenter = ?
AND deleted = 0`. -/
def maxVersionQuery (tbl : Table) (key datacenter : String) : Option Int :=
  sqlMax ((tbl.filter (fun r => r.kvkey == key && r.datacenter == datacenter && !r.deleted)).map
    (fun r => r.version))

/-- `rows.Scan(&version)`: the new value of `version`, or the scan error (then
`version` keeps its value). -/
def scanVersion (f : Faults) (cell : Option Int) : Except String Int :=
  match f.scanErr with
  | some e => Except.error e
  | Option.none =>
    match cell with
    | Option.none => Except.error scanNullErr
    | some v => Except.ok v

/-- Go `version++` on the 64-bit `int`: the successor, wrapping from `2^63 - 1`
to `-2^63`. -/
def goIncr (v : Int) : Int :=
  (v + 1 + 2 ^ 63) % 2 ^ 64 - 2 ^ 63

/-- `getVersion(key, datacenter)`: the pair `(version, err)`.  The aggregate
query yields one row, so the loop body runs once.  `version++` is written
`v + 1`, which is `goIncr v` for `-2^63 ≤ v < 2^63 - 1` (`goIncr_eq_succ`); at
`v = 2^63 - 1` the Go `int` wraps and the two differ. -/
def getVersion (f : Faults) (tbl : Table) (key datacenter : String) : Int × Option String :=
  match f.queryErr with
  | some e => (-1, some e)
  | Option.none =>
    match scanVersion f (maxVersionQuery tbl key datacenter) with
    | Except.error e =>
      if !stringsContains e "converting driver.Value type" then (-1, some e)
      else (0 + 1, Option.none)
    | Except.ok v => (v + 1, Option.none)

/-- `UPDATE kv SET deleted = 1 WHERE <cond>`. -/
def markDeleted (cond : Row → Bool) (tbl : Table) : Table :=
  tbl.map (fun r => if cond r then { r with deleted := true } else r)

/-- `deleteKVTree(args, s)`: the returned error and the table afterwards.  The
warning written to the log is not modelled. -/
def deleteKVTree (f : Faults) (tbl : Table) (args : KVSRequest) : Option String × Table :=
  match f.execErr with
  | some e => (some e, tbl)
  | Option.none =>
    (Option.none,
      markDeleted (fun r => likeLiteral args.DirEnt.Key r.kvkey && r.datacenter == args.Datacenter) tbl)

/-- `deleteKV(args, s)`: the returned error and the table afterwards. -/
def deleteKV (f : Faults) (tbl : Table) (args : KVSRequest) : Option String × Table :=
  match f.execErr with
  | some e => (some e, tbl)
  | Option.none =>
    (Option.none,
      markDeleted (fun r => r.kvkey == args.DirEnt.Key && r.datacenter == args.Datacenter) tbl)

/-- The row written by the `insert` of `changeKV` at time `now`; the columns
the statement does not list take their defaults (`deleted = 0`, `regex NULL`). -/
def insertedRow (now : Nat) (args : KVSRequest) (version : Int) : Row :=
  { timestamp := now
    createIndex := args.DirEnt.CreateIndex
    flags := args.DirEnt.Flags
    kvkey := args.DirEnt.Key
    lockIndex := args.DirEnt.LockIndex
    modifyIndex := args.DirEnt.ModifyIndex
    session := args.DirEnt.Session
    kvvalue := args.DirEnt.Value
    version := version
    datacenter := args.Datacenter
    acl := args.Token
    deleted := false
    regex := Option.none }

/-- Go `string(rowseffected)` on an integer: the one-character string of that
code point (the replacement character outside the valid range). -/
def stringOfInt (n : Int) : String :=
  if 0 ≤ n ∧ n.toNat.isValidChar then String.singleton (Char.ofNat n.toNat)
  else String.singleton (Char.ofNat 0xFFFD)

/-- `changeKV(args)` at time `now`: the pair `(version, err)` or a panic, and
the table afterwards.  The error of `insert.Exec` is overwritten without
being looked at; after a failed `Exec` the result `res` is nil and
`res.RowsAffected()` dereferences it. -/
def changeKV (f : Faults) (now : Nat) (tbl : Table) (args : KVSRequest) :
    GoResult (Int × Option String) × Table :=
  match getVersion f tbl args.DirEnt.Key args.Datacenter with
  | (_, some e) => (GoResult.ret (-1, some e), tbl)
  | (version, Option.none) =>
    match f.prepareErr with
    | some e => (GoResult.ret (-1, some e), tbl)
    | Option.none =>
      match f.execErr with
      | some _ => (GoResult.panic nilDeref, tbl)
      | Option.none =>
        let tbl1 := tbl ++ [insertedRow now args version]
        match f.rowsAffected with
        | Except.error e => (GoResult.ret (-1, some e), tbl1)
        | Except.ok rowseffected =>
          if rowseffected ≠ 1 then
            (GoResult.ret (-1, some ("Affected rows should be 1 but is " ++ stringOfInt rowseffected)),
              tbl1)
          else (GoResult.ret (version, Option.none), tbl1)

/-- `(s *Server) LogKVChange(args)`: the returned error or a panic, and the
table afterwards.  Log lines are not modelled. -/
def LogKVChange (f : Faults) (now : Nat) (tbl : Table) (args : KVSRequest) :
    GoResult (Option String) × Table :=
  match args.Op with
  | KVOp.KVDeleteTree =>
    match deleteKVTree f tbl args with
    | (some e, t) => (GoResult.ret (some e), t)
    | (Option.none, t) => (GoResult.ret Option.none, t)
  | KVOp.KVDelete =>
    match deleteKV f tbl args with
    | (some e, t) => (GoResult.ret (some e), t)
    | (Option.none, t) => (GoResult.ret Option.none, t)
  | KVOp.KVSet =>
    match changeKV f now tbl args with
    | (GoResult.panic m, t) => (GoResult.panic m, t)
    | (GoResult.ret (_, some e), t) => (GoResult.ret (some e), t)
    | (GoResult.ret (_, Option.none), t) => (GoResult.ret Option.none, t)
  | _ => (GoResult.ret Option.none, tbl)

/-- One `changeKV` call of a serialized run: the driver behaviour during the
call, the time of the call and the request. -/
structure SetOp where
  faults : Faults
  now : Nat
  args : KVSRequest

/-- Whether the set is on `(key, datacenter)`. -/
def SetOp.targets (key datacenter : String) (op : SetOp) : Bool :=
  op.args.DirEnt.Key == key && op.args.Datacenter == datacenter

/-- The calls of `changeKV` executed one after another on the same table: the
result of each call, in order, and the final table.  A call that panics
leaves the table as it was, and the run goes on with the next call. -/
def runSets : Table → List SetOp → List (GoResult (Int × Option String)) × Table
  | tbl, [] => ([], tbl)
  | tbl, op :: ops =>
    let r := changeKV op.faults op.now tbl op.args
    let rest := runSets r.2 ops
    (r.1 :: rest.1, rest.2)

/-- The results of the sets on `(key, datacenter)` within a run, in order. -/
def resultsOn (key datacenter : String) (ops : List SetOp)
    (results : List (GoResult (Int × Option String))) : List (GoResult (Int × Option String)) :=
  ((ops.zip results).filter (fun p => p.1.targets key datacenter)).map (fun p => p.2)

/-- The versions of the rows of `(key, datacenter)`, deleted or not, in
insertion order. -/
def versionsOf (tbl : Table) (key datacenter : String) : List Int :=
  (tbl.filter (fun r => r.kvkey == key && r.datacenter == datacenter)).map (fun r => r.version)

end Consul

/-! ## `agent/structs/errors.go` -/

/-- Text of `structs.ErrNoServers`. -/
def errNoServers : String := "No known Consul servers"

/-! ## `agent/dbfallback.go` and `agent/kvs_endpoint.go` -/

namespace Agent

/-- A `*sql.DB` handle: `closed` is set by `db.Close()`. -/
structure Conn where
  closed : Bool
deriving DecidableEq, Repr

/-- A call made on a collaborator of the HTTP handler, in the order made. -/
inductive Call where
  | rpc (method : String)
  | openAuditor
  | closeAuditor
  | query (key datacenter : String)
deriving DecidableEq, Repr

/-- Process state of the agent: the package variable `db` (`none` is `nil`)
and the calls made so far. -/
structure State where
  db : Option Conn
  calls : List Call
deriving DecidableEq, Repr

/-- Whether a call is made on the audit connection (open, close or query). -/
def Call.onAuditor : Call → Bool
  | Call.rpc _ => false
  | _ => true

/-- Whether a call belongs to the fallback branch of `KVSGet` (lines 72 to 85:
`OpenAuditor` and the query of `GetKV`). -/
def Call.isFallback : Call → Bool
  | Call.openAuditor => true
  | Call.query _ _ => true
  | _ => false

/-- State at process start: `db` is nil, nothing was called. -/
def State.init : State := { db := none, calls := [] }

/-- The fields of `structs.KeyRequest` used by the handlers. -/
structure KeyRequest where
  Datacenter : String
  Key : String
deriving DecidableEq, Repr

/-- The collaborators of a request: the contents of the audit table, the
answer of the primary store to an RPC, and the driver failures of `sql.Open`,
`db.Query` and `db.Close`. -/
structure Env where
  table : Table
  rpc : String → KeyRequest → Except String (List DirEntry)
  openErr : Option String
  queryErr : Option String
  closeErr : Option String

/-- `IsAuditorOpen()`: `db != nil`. -/
def IsAuditorOpen (st : State) : Bool :=
  st.db.isSome

/-- `OpenAuditor()`: assigns both results of `sql.Open` (`db` is nil when it
fails) and returns the error. -/
def OpenAuditor (env : Env) (st : State) : Option String × State :=
  let st1 := { st with calls := st.calls ++ [Call.openAuditor] }
  match env.openErr with
  | some e => (some e, { st1 with db := none })
  | none => (none, { st1 with db := some { closed := false } })

/-- `CloseAuditor()`: `db.Close()`; the variable `db` keeps the handle. -/
def CloseAuditor (env : Env) (st : State) : GoResult (Option String) × State :=
  let st1 := { st with calls := st.calls ++ [Call.closeAuditor] }
  match st.db with
  | none => (GoResult.panic nilDeref, st1)
  | some c =>
    if c.closed then (GoResult.ret none, st1)
    else
      let st2 := { st1 with db := some { closed := true } }
      match env.closeErr with
      | some e => (GoResult.ret (some e), st2)
      | none => (GoResult.ret none, st2)

/-- The rows of `SELECT kvkey, kvvalue, regex FROM kv WHERE kvkey = ? AND
version = ( SELECT MAX(version) FROM kv WHERE kvkey = ?) AND datacenter = ? AND
deleted = 0 ORDER BY timestamp DESC`. -/
def getKVQuery (tbl : Table) (key datacenter : String) : List Row :=
  let maxVersion := sqlMax ((tbl.filter (fun r => r.kvkey == key)).map (fun r => r.version))
  orderByTimestampDesc
    (tbl.filter (fun r =>
      r.kvkey == key && some r.version == maxVersion && r.datacenter == datacenter && !r.deleted))

/-- One `rows.Scan(&entry.Key, &entry.Value, &regex)` followed by
`entry.RegEx = regex.String`. -/
def scanEntry (entry : DirEntry) (r : Row) : DirEntry :=
  { entry with Key := r.kvkey, Value := r.kvvalue, RegEx := r.regex.getD "" }

/-- `GetKV(key, datacenter)`: the pair `(entry, err)` or a panic.  Every row
of the result is scanned into the same `entry`. -/
def GetKV (env : Env) (st : State) (key datacenter : String) :
    GoResult (DirEntry × Option String) × State :=
  match st.db with
  | none => (GoResult.panic nilDeref, st)
  | some c =>
    let st1 := { st with calls := st.calls ++ [Call.query key datacenter] }
    if c.closed then (GoResult.ret (DirEntry.zero, some "sql: database is closed"), st1)
    else
      match env.queryErr with
      | some e => (GoResult.ret (DirEntry.zero, some e), st1)
      | none =>
        (GoResult.ret ((getKVQuery env.table key datacenter).foldl scanEntry DirEntry.zero, none), st1)

/-- Parsed query string, `url.Values`. -/
abbrev Values := List (String × List String)

/-- The test `_, ok := params[name]`. -/
def Values.has (params : Values) (name : String) : Bool :=
  (params.lookup name).isSome

/-- `params.Get(name)`: the first value of `name`, or the empty string. -/
def Values.Get (params : Values) (name : String) : String :=
  match params.lookup name with
  | some (v :: _) => v
  | _ => ""

/-- What a handler wrote to its `http.ResponseWriter`. -/
structure Resp where
  status : Option Nat
  header : List (String × String)
  body : String
deriving DecidableEq, Repr

/-- Nothing written. -/
def Resp.empty : Resp := { status := none, header := [], body := "" }

/-- The results `(interface{}, error)` of a handler whose value is a list. -/
structure Reply (α : Type) where
  out : Option (List α)
  err : Option String
deriving DecidableEq, Repr

/-- `missingKey(resp, args)`. -/
def missingKey (resp : Resp) (args : KeyRequest) : Bool × Resp :=
  if args.Key == "" then
    (true, { resp with status := some 400, body := resp.body ++ "Missing key name" })
  else (false, resp)

/-- Lines 95 to 112 of `KVSGet`: the answer once `out.Entries` is known.
(`setMeta` only writes index headers, which are not modelled.) -/
def KVSGet.answer (params : Values) (method : String) (entries : List DirEntry) (resp : Resp) :
    Reply DirEntry × Resp :=
  match entries with
  | [] => ({ out := none, err := none }, { resp with status := some 404 })
  | e :: _ =>
    if params.has "raw" && method == "KVS.Get" then
      ({ out := none, err := none },
        { resp with
          header := resp.header ++ [("Content-Length", toString e.Value.utf8ByteSize)]
          body := resp.body ++ e.Value })
    else ({ out := some entries, err := none }, resp)

/-- `KVSGet(resp, req, args)`: the results or a panic, what was written to
`resp`, and the process state afterwards. -/
def KVSGet (env : Env) (st : State) (params : Values) (args : KeyRequest) :
    GoResult (Reply DirEntry) × Resp × State :=
  let method := if params.has "recurse" then "KVS.List" else "KVS.Get"
  let mk := if params.has "recurse" then (false, Resp.empty) else missingKey Resp.empty args
  if mk.1 then (GoResult.ret { out := none, err := none }, mk.2, st)
  else
    let st1 := { st with calls := st.calls ++ [Call.rpc method] }
    match env.rpc method args with
    | Except.error err =>
      if method == "KVS.Get" && err == "No known Consul servers" then
        let st2 := if IsAuditorOpen st1 == false then (OpenAuditor env st1).2 else st1
        match GetKV env st2 args.Key args.Datacenter with
        | (GoResult.panic m, st3) => (GoResult.panic m, mk.2, st3)
        | (GoResult.ret (_, some e), st3) => (GoResult.ret { out := none, err := some e }, mk.2, st3)
        | (GoResult.ret (entry, none), st3) =>
          let entries := if entry.Key != "" then [entry] else []
          let a := KVSGet.answer params method entries mk.2
          (GoResult.ret a.1, a.2, st3)
      else (GoResult.ret { out := none, err := some err }, mk.2, st1)
    | Except.ok entries =>
      if IsAuditorOpen st1 then
        match CloseAuditor env st1 with
        | (GoResult.panic m, st2) => (GoResult.panic m, mk.2, st2)
        | (GoResult.ret _, st2) =>
          let a := KVSGet.answer params method entries mk.2
          (GoResult.ret a.1, a.2, st2)
      else
        let a := KVSGet.answer params method entries mk.2
        (GoResult.ret a.1, a.2, st1)

/-- The fields of `structs.KeyListRequest` set by `KVSGetKeys`. -/
structure KeyListRequest where
  Datacenter : String
  Prefix : String
  Seperator : String
deriving DecidableEq, Repr

/-- `KVSGetKeys(resp, req, args)`: the results, what was written to `resp`, and
the RPC calls made with their arguments.  `rpc` is the answer of the primary
store to `KVS.ListKeys`. -/
def KVSGetKeys (rpc : KeyListRequest → Except String (List String)) (params : Values)
    (args : KeyRequest) : Reply String × Resp × List (String × KeyListRequest) :=
  let sep := ""
  let sep := if params.has "seperator" then params.Get "seperator" else sep
  let sep := if params.has "separator" then params.Get "separator" else sep
  let listArgs : KeyListRequest :=
    { Datacenter := args.Datacenter, Prefix := args.Key, Seperator := sep }
  let calls := [("KVS.ListKeys", listArgs)]
  match rpc listArgs with
  | Except.error err => ({ out := none, err := some err }, Resp.empty, calls)
  | Except.ok keys =>
    if keys.length == 0 && listArgs.Prefix != "" then
      ({ out := none, err := none }, { Resp.empty with status := some 404 }, calls)
    else ({ out := some keys, err := none }, Resp.empty, calls)

end Agent

/-! ## The specification's wording, for comparison with the code -/

namespace Spec

/-- The non-deleted rows of `(key, datacenter)`. -/
def liveRows (tbl : Table) (key datacenter : String) : List Row :=
  tbl.filter (fun r => r.kvkey == key && r.datacenter == datacenter && !r.deleted)

/-- "Current value for `(key, datacenter)` = the row with `max(version)` among
non-deleted rows": `r` is a non-deleted row of `(key, datacenter)` and no
non-deleted row of `(key, datacenter)` has a higher version. -/
def isCurrent (tbl : Table) (key datacenter : String) (r : Row) : Bool :=
  (liveRows tbl key datacenter).contains r &&
    (liveRows tbl key datacenter).all (fun r1 => decide (r1.version ≤ r.version))

/-- "`max(version)` among all rows (deleted or not) for `(key, datacenter)`;
returns that value + 1, or 1 if no rows exist". -/
def nextVersion (tbl : Table) (key datacenter : String) : Int :=
  match sqlMax ((tbl.filter (fun r => r.kvkey == key && r.datacenter == datacenter)).map
      (fun r => r.version)) with
  | none => 1
  | some m => m + 1

/-- "`keyPrefix` as a literal string prefix". -/
def literalPrefix (keyPrefix key : String) : Bool :=
  keyPrefix.toList.isPrefixOf key.toList

end Spec

/-! ## Sample data -/

namespace Sample

/-- A row of table `kv` with the columns that matter for versions and
visibility; the others are zero. -/
def row (timestamp : Nat) (key value : String) (version : Int) (datacenter : String)
    (deleted : Bool) : Row :=
  { timestamp := timestamp, createIndex := 0, flags := 0, kvkey := key, lockIndex := 0,
    modifyIndex := 0, session := "", kvvalue := value, version := version,
    datacenter := datacenter, acl := "", deleted := deleted, regex := none }

/-- A request of operation `op` on `key` in `datacenter` carrying `value`. -/
def request (op : KVOp) (key value datacenter : String) : KVSRequest :=
  { Datacenter := datacenter, Op := op, DirEnt := { DirEntry.zero with Key := key, Value := value },
    Token := "" }

/-- Key `k1` was set once in `dc1` and twice in `dc2`. -/
def twoDatacenters : Table :=
  [row 1 "k1" "v1" 1 "dc1" false, row 2 "k1" "a" 1 "dc2" false, row 3 "k1" "b" 2 "dc2" false]

/-- Key `k1` of `dc1` after set, set, delete, set: the last set took version 1
again. -/
def reusedVersion : Table :=
  [row 1 "k1" "old" 1 "dc1" true, row 2 "k1" "older" 2 "dc1" true, row 3 "k1" "new" 1 "dc1" false]

/-- Rows of other keys and datacenters than `(k1, dc1)`. -/
def otherRows : Table :=
  [row 1 "k1" "a" 1 "dc2" false, row 2 "k2" "b" 1 "dc1" true]

/-- Two sets on `(k1, dc1)` with a set on `(k1, dc2)` in between, on which the
driver reports no affected row. -/
def interleaved : List Consul.SetOp :=
  [{ faults := Consul.Faults.none, now := 3, args := request KVOp.KVSet "k1" "x" "dc1" },
   { faults := { Consul.Faults.none with rowsAffected := Except.ok 0 }, now := 4,
     args := request KVOp.KVSet "k1" "y" "dc2" },
   { faults := Consul.Faults.none, now := 5, args := request KVOp.KVSet "k1" "z" "dc1" }]

/-- An agent whose primary store answers every RPC with `answer`, over audit
table `tbl`, with a driver that does not fail. -/
def env (tbl : Table) (answer : Except String (List DirEntry)) : Agent.Env :=
  { table := tbl, rpc := fun _ _ => answer, openErr := none, queryErr := none, closeErr := none }

/-- An agent state with an open audit connection. -/
def opened : Agent.State := { db := some { closed := false }, calls := [] }

/-- Key `k1` of `dc1` was set once. -/
def history : Table := [row 1 "k1" "v0" 1 "dc1" false]

/-- The table `history` after `LogKVChange` of set `k1 = v1`. -/
def afterSet : Table :=
  (Consul.LogKVChange Consul.Faults.none 2 history (request KVOp.KVSet "k1" "v1" "dc1")).2

/-- The table `afterSet` after `LogKVChange` of delete `k1`. -/
def afterDelete : Table :=
  (Consul.LogKVChange Consul.Faults.none 3 afterSet (request KVOp.KVDelete "k1" "" "dc1")).2

/-- The table `afterDelete` after `LogKVChange` of set `k1 = v2`. -/
def afterSecondSet : Table :=
  (Consul.LogKVChange Consul.Faults.none 4 afterDelete (request KVOp.KVSet "k1" "v2" "dc1")).2

/-- The plain get of `k1` in `dc1`. -/
def getK1 : Agent.KeyRequest := { Datacenter := "dc1", Key := "k1" }

/-- The primary store is unreachable: every RPC fails with the no-servers
text. -/
def failing : Agent.Env := env history (Except.error errNoServers)

/-- The primary store answers the get of `k1`. -/
def healthy : Agent.Env := env history (Except.ok [{ DirEntry.zero with Key := "k1", Value := "v0" }])

/-- Process state after a first read, which failed over to the audit store. -/
def afterFirstRead : Agent.State := (Agent.KVSGet failing Agent.State.init [] getK1).2.2

/-- Process state after a second read, answered by the primary store. -/
def afterSecondRead : Agent.State := (Agent.KVSGet healthy afterFirstRead [] getK1).2.2

end Sample

/-! ## Properties -/

open Consul Agent

/-- C1 (code defect): `GetKV` compares `version` with the maximum over every
row of the key, whatever its datacenter and `deleted` flag.  In
`Sample.twoDatacenters` the row of version 1 is the current row of
`(k1, dc1)`, yet `GetKV "k1" "dc1"` returns the empty entry because `dc2`
holds version 2; in `Sample.reusedVersion` the non-deleted row of version 1
is current, yet the deleted row of version 2 hides it. -/
theorem GetKV_hidden_by_foreign_or_deleted_rows :
    Spec.isCurrent Sample.twoDatacenters "k1" "dc1" (Sample.row 1 "k1" "v1" 1 "dc1" false) = true ∧
    (GetKV (Sample.env Sample.twoDatacenters (Except.ok [])) Sample.opened "k1" "dc1").1
      = GoResult.ret (DirEntry.zero, none) ∧
    Spec.isCurrent Sample.reusedVersion "k1" "dc1" (Sample.row 3 "k1" "new" 1 "dc1" false) = true ∧
    (GetKV (Sample.env Sample.reusedVersion (Except.ok [])) Sample.opened "k1" "dc1").1
      = GoResult.ret (DirEntry.zero, none) := by
  decide

/-- C2 (code defect): on a table that already holds one set of `k1`, after
set `v1` and delete `GetKV "k1" "dc1"` returns the empty entry, and after the
further set `v2` it still returns the empty entry: that set is stored under
version 1 while the deleted row of version 2 is the maximum `GetKV` looks
for. -/
theorem set_delete_set_with_history_reads_nothing :
    (GetKV (Sample.env Sample.afterDelete (Except.ok [])) Sample.opened "k1" "dc1").1
      = GoResult.ret (DirEntry.zero, none) ∧
    (LogKVChange Faults.none 4 Sample.afterDelete (Sample.request KVOp.KVSet "k1" "v2" "dc1")).1
      = GoResult.ret none ∧
    Sample.afterSecondSet
      = [Sample.row 1 "k1" "v0" 1 "dc1" true, Sample.row 2 "k1" "v1" 2 "dc1" true,
         Sample.row 4 "k1" "v2" 1 "dc1" false] ∧
    (GetKV (Sample.env Sample.afterSecondSet (Except.ok [])) Sample.opened "k1" "dc1").1
      = GoResult.ret (DirEntry.zero, none) := by
  decide

/-- C6 (code defect, the one of C1): the primary store answers "No known
Consul servers" and the audit table holds a current row of `(k1, dc1)`: `v1` in
`Sample.twoDatacenters`, `new` in `Sample.reusedVersion` (the state after set,
set, delete, set).  On both tables the plain get of `k1` in `dc1` answers 404
with a nil result instead of that entry. -/
theorem KVSGet_fallback_misses_current_row :
    Spec.isCurrent Sample.twoDatacenters "k1" "dc1" (Sample.row 1 "k1" "v1" 1 "dc1" false) = true ∧
    KVSGet (Sample.env Sample.twoDatacenters (Except.error errNoServers)) State.init []
        Sample.getK1
      = (GoResult.ret { out := none, err := none },
         { status := some 404, header := [], body := "" },
         { db := some { closed := false },
           calls := [Call.rpc "KVS.Get", Call.openAuditor, Call.query "k1" "dc1"] }) ∧
    Spec.isCurrent Sample.reusedVersion "k1" "dc1" (Sample.row 3 "k1" "new" 1 "dc1" false) = true ∧
    KVSGet (Sample.env Sample.reusedVersion (Except.error errNoServers)) State.init []
        Sample.getK1
      = (GoResult.ret { out := none, err := none },
         { status := some 404, header := [], body := "" },
         { db := some { closed := false },
           calls := [Call.rpc "KVS.Get", Call.openAuditor, Call.query "k1" "dc1"] }) := by
  decide

/-- C7 (code defect): `CloseAuditor` leaves the variable `db` non-nil, so
`IsAuditorOpen` stays true after a read that succeeded through the primary
store.  Over the reads fail, success, fail from the initial state the calls
are `OpenAuditor` on the first read, `CloseAuditor` on the second, and on the
third no `OpenAuditor` at all: the query runs on the closed handle and the
read returns "sql: database is closed". -/
theorem fail_success_fail_does_not_reopen :
    (KVSGet Sample.failing State.init [] Sample.getK1).2.2.calls
      = [Call.rpc "KVS.Get", Call.openAuditor, Call.query "k1" "dc1"] ∧
    (KVSGet Sample.healthy Sample.afterFirstRead [] Sample.getK1).2.2.calls
      = Sample.afterFirstRead.calls ++ [Call.rpc "KVS.Get", Call.closeAuditor] ∧
    IsAuditorOpen Sample.afterSecondRead = true ∧
    (KVSGet Sample.failing Sample.afterSecondRead [] Sample.getK1).2.2.calls
      = Sample.afterSecondRead.calls ++ [Call.rpc "KVS.Get", Call.query "k1" "dc1"] ∧
    (KVSGet Sample.failing Sample.afterSecondRead [] Sample.getK1).1
      = GoResult.ret { out := none, err := some "sql: database is closed" } := by
  decide

/-- C8 (code defect): the key is pasted into the `LIKE` pattern unescaped.
With prefix `a_b` the row of key `axb/c` is marked deleted, and with prefix
`a%/` the row of key `abc/d`, although neither key starts with the prefix;
with prefix `app/` the keys `app/a` and `app/b/c` are marked and
`application/x` is not. -/
theorem deleteKVTree_reads_wildcards_in_key :
    Spec.literalPrefix "a_b" "axb/c" = false ∧
    deleteKVTree Faults.none [Sample.row 1 "axb/c" "v" 1 "dc1" false]
        (Sample.request KVOp.KVDeleteTree "a_b" "" "dc1")
      = (none, [Sample.row 1 "axb/c" "v" 1 "dc1" true]) ∧
    Spec.literalPrefix "a%/" "abc/d" = false ∧
    deleteKVTree Faults.none [Sample.row 1 "abc/d" "v" 1 "dc1" false]
        (Sample.request KVOp.KVDeleteTree "a%/" "" "dc1")
      = (none, [Sample.row 1 "abc/d" "v" 1 "dc1" true]) ∧
    deleteKVTree Faults.none
        [Sample.row 1 "app/a" "v" 1 "dc1" false, Sample.row 2 "app/b/c" "v" 1 "dc1" false,
         Sample.row 3 "application/x" "v" 1 "dc1" false]
        (Sample.request KVOp.KVDeleteTree "app/" "" "dc1")
      = (none, [Sample.row 1 "app/a" "v" 1 "dc1" true, Sample.row 2 "app/b/c" "v" 1 "dc1" true,
         Sample.row 3 "application/x" "v" 1 "dc1" false]) := by
  decide

/-! ### Version allocation -/

theorem sqlMax_eq_none {l : List Int} : sqlMax l = none ↔ l = [] := by
  cases l with
  | nil => simp [sqlMax]
  | cons x xs =>
    simp only [sqlMax]
    cases sqlMax xs <;> simp

theorem sqlMax_mem {l : List Int} {m : Int} (h : sqlMax l = some m) : m ∈ l := by
  induction l generalizing m with
  | nil => simp [sqlMax] at h
  | cons x xs ih =>
    simp only [sqlMax] at h
    cases hxs : sqlMax xs with
    | none =>
      rw [hxs] at h
      simp only [Option.some.injEq] at h
      simp [h]
    | some m1 =>
      rw [hxs] at h
      simp only [Option.some.injEq] at h
      rcases max_choice x m1 with hc | hc
      · rw [hc] at h
        simp [h]
      · rw [hc] at h
        subst h
        exact List.mem_cons_of_mem _ (ih hxs)

theorem sqlMax_le {l : List Int} {m : Int} (h : sqlMax l = some m) : ∀ x ∈ l, x ≤ m := by
  induction l generalizing m with
  | nil => simp
  | cons x xs ih =>
    simp only [sqlMax] at h
    intro y hy
    cases hxs : sqlMax xs with
    | none =>
      rw [hxs] at h
      simp only [Option.some.injEq] at h
      have hnil : xs = [] := sqlMax_eq_none.mp hxs
      subst hnil
      simp only [List.mem_singleton] at hy
      omega
    | some m1 =>
      rw [hxs] at h
      simp only [Option.some.injEq] at h
      rcases List.mem_cons.mp hy with hy | hy
      · subst hy
        subst h
        exact le_max_left _ _
      · have := ih hxs y hy
        subst h
        exact le_trans this (le_max_right _ _)

theorem scanNullErr_tolerated :
    stringsContains scanNullErr "converting driver.Value type" = true := by
  decide

/-- The version query of `getVersion` ranges over `Spec.liveRows`. -/
theorem maxVersionQuery_eq (tbl : Table) (key datacenter : String) :
    maxVersionQuery tbl key datacenter
      = sqlMax ((Spec.liveRows tbl key datacenter).map (fun r => r.version)) := rfl

/-- With a driver whose query and scan do not fail, `getVersion` is the
successor of the `MAX` cell, and 1 on `NULL`. -/
theorem getVersion_eq (f : Faults) (tbl : Table) (key datacenter : String)
    (hq : f.queryErr = none) (hs : f.scanErr = none) :
    getVersion f tbl key datacenter
      = ((match maxVersionQuery tbl key datacenter with
          | none => 1
          | some v => v + 1), none) := by
  unfold getVersion scanVersion
  rw [hq, hs]
  cases maxVersionQuery tbl key datacenter with
  | none => simp [scanNullErr_tolerated]
  | some v => simp

/-- C4 (counterexample): the only row of `(k1, dc1)` is deleted and has
version 1.  The maximum over all rows plus one is 2, but `getVersion` returns
1, the version of the deleted row. -/
theorem getVersion_ignores_deleted_rows :
    getVersion Faults.none [Sample.row 1 "k1" "v1" 1 "dc1" true] "k1" "dc1" = (1, none) ∧
    Spec.nextVersion [Sample.row 1 "k1" "v1" 1 "dc1" true] "k1" "dc1" = 2 ∧
    (getVersion Faults.none [Sample.row 1 "k1" "v1" 1 "dc1" true] "k1" "dc1").1
      ≠ Spec.nextVersion [Sample.row 1 "k1" "v1" 1 "dc1" true] "k1" "dc1" := by
  decide

/-- Below `2^63 - 1` the Go increment of a 64-bit value is the successor. -/
theorem goIncr_eq_succ (v : Int) (h1 : -2 ^ 63 ≤ v) (h2 : v < 2 ^ 63 - 1) :
    goIncr v = v + 1 := by
  unfold goIncr
  omega

/-- At `2^63 - 1` the Go increment wraps to `-2^63`. -/
theorem goIncr_wraps : goIncr (2 ^ 63 - 1) = -2 ^ 63 := by
  decide

/-- C4 (amended): let the non-deleted rows of `(key, datacenter)` hold 64-bit
versions below `2^63 - 1`, the range in which Go's `version++` does not wrap.
When the query and the scan do not fail, `getVersion` returns 1 if
`(key, datacenter)` has no non-deleted row, and otherwise the Go increment of
the version of a non-deleted row of `(key, datacenter)` that no other
non-deleted row of `(key, datacenter)` exceeds, which is that version plus
one.  Deleted rows are not counted. -/
theorem getVersion_succ_of_max_live (f : Faults) (tbl : Table) (key datacenter : String)
    (hq : f.queryErr = none) (hs : f.scanErr = none)
    (hb : ∀ r ∈ Spec.liveRows tbl key datacenter, -2 ^ 63 ≤ r.version ∧ r.version < 2 ^ 63 - 1) :
    (Spec.liveRows tbl key datacenter = [] → getVersion f tbl key datacenter = (1, none)) ∧
    (Spec.liveRows tbl key datacenter ≠ [] →
      ∃ r ∈ Spec.liveRows tbl key datacenter,
        getVersion f tbl key datacenter = (goIncr r.version, none) ∧
        goIncr r.version = r.version + 1 ∧
        ∀ r1 ∈ Spec.liveRows tbl key datacenter, r1.version ≤ r.version) := by
  rw [getVersion_eq f tbl key datacenter hq hs, maxVersionQuery_eq]
  constructor
  · intro h
    rw [h]
    rfl
  · intro h
    cases hm : sqlMax ((Spec.liveRows tbl key datacenter).map (fun r => r.version)) with
    | none =>
      have := sqlMax_eq_none.mp hm
      simp only [List.map_eq_nil_iff] at this
      exact absurd this h
    | some m =>
      obtain ⟨r, hr, hrm⟩ := List.mem_map.mp (sqlMax_mem hm)
      have hgo : goIncr r.version = r.version + 1 :=
        goIncr_eq_succ r.version (hb r hr).1 (hb r hr).2
      refine ⟨r, hr, ?_, hgo, ?_⟩
      · rw [hgo]
        simp [hrm]
      · intro r1 hr1
        rw [hrm]
        exact sqlMax_le hm _ (List.mem_map_of_mem _ hr1)

/-- C4 (amended), on the table `Sample.reusedVersion` with a driver that does
not fail. -/
theorem getVersion_succ_of_max_live_witness :
    Faults.none.queryErr = none ∧ Faults.none.scanErr = none ∧
    (∀ r ∈ Spec.liveRows Sample.reusedVersion "k1" "dc1",
      -2 ^ 63 ≤ r.version ∧ r.version < 2 ^ 63 - 1) ∧
    ((Spec.liveRows Sample.reusedVersion "k1" "dc1" = [] →
        getVersion Faults.none Sample.reusedVersion "k1" "dc1" = (1, none)) ∧
     (Spec.liveRows Sample.reusedVersion "k1" "dc1" ≠ [] →
        ∃ r ∈ Spec.liveRows Sample.reusedVersion "k1" "dc1",
          getVersion Faults.none Sample.reusedVersion "k1" "dc1" = (goIncr r.version, none) ∧
          goIncr r.version = r.version + 1 ∧
          ∀ r1 ∈ Spec.liveRows Sample.reusedVersion "k1" "dc1", r1.version ≤ r.version)) :=
  ⟨rfl, rfl, by decide,
    getVersion_succ_of_max_live Faults.none Sample.reusedVersion "k1" "dc1" rfl rfl (by decide)⟩

/-! ### Failures of `changeKV` -/

/-- C9 (code defect): when the version query and `Prepare` go through and
`insert.Exec` fails with any error `e`, `changeKV` does not return: it panics
on the nil result of `Exec`. -/
theorem changeKV_panics_on_failed_insert (now : Nat) (tbl : Table) (args : KVSRequest)
    (e : String) :
    changeKV { Faults.none with execErr := some e } now tbl args
      = (GoResult.panic nilDeref, tbl) := by
  have hv := getVersion_eq { Faults.none with execErr := some e } tbl args.DirEnt.Key
    args.Datacenter rfl rfl
  unfold changeKV
  rw [hv]
  rfl

/-! ### Separator of `KVSGetKeys` -/

/-- C10 (counterexample): with `seperator=a` and `separator=b` both present,
`KVS.ListKeys` receives `b`, the value of `separator`. -/
theorem KVSGetKeys_both_spellings :
    Values.Get [("seperator", ["a"]), ("separator", ["b"])] "seperator" = "a" ∧
    (KVSGetKeys (fun _ => Except.ok []) [("seperator", ["a"]), ("separator", ["b"])]
        { Datacenter := "dc1", Key := "app/" }).2.2
      = [("KVS.ListKeys", { Datacenter := "dc1", Prefix := "app/", Seperator := "b" })] := by
  decide

/-- C10 (amended): `KVSGetKeys` makes one RPC, `KVS.ListKeys`, whose separator
is the value of `separator` when that parameter is present (alone or together
with `seperator`), the value of `seperator` when only that one is present, and
the empty string when neither is. -/
theorem KVSGetKeys_separator (rpc : KeyListRequest → Except String (List String))
    (params : Values) (args : KeyRequest) :
    (KVSGetKeys rpc params args).2.2
      = [("KVS.ListKeys",
          { Datacenter := args.Datacenter, Prefix := args.Key,
            Seperator :=
              if params.has "separator" then params.Get "separator"
              else if params.has "seperator" then params.Get "seperator"
              else "" })] := by
  unfold KVSGetKeys
  cases h1 : params.has "separator" <;> cases h2 : params.has "seperator" <;>
    simp only [h1, h2] <;> split <;> (try split) <;> simp


/-! ### Versions recorded by a run of sets -/

theorem sqlMax_range (s m : Nat) :
    sqlMax ((List.range' s m).map Int.ofNat)
      = if m = 0 then none else some ((s : Int) + m - 1) := by
  induction m generalizing s with
  | zero => simp [sqlMax]
  | succ m ih =>
    rw [List.range'_succ, List.map_cons, sqlMax, ih]
    by_cases hm : m = 0
    · subst hm; simp
    · simp only [hm, if_false]
      simp only [Nat.succ_ne_zero, if_false, Option.some.injEq]
      simp only [Int.ofNat_eq_coe]
      push_cast
      omega

/-- A set on another key or datacenter leaves the rows of `(key, datacenter)`
as they are, whatever the driver does. -/
theorem changeKV_other_rows (key datacenter : String) (f : Faults) (now : Nat) (tbl : Table)
    (args : KVSRequest) (h : ¬ (args.DirEnt.Key = key ∧ args.Datacenter = datacenter)) :
    (changeKV f now tbl args).2.filter (fun r => r.kvkey == key && r.datacenter == datacenter)
      = tbl.filter (fun r => r.kvkey == key && r.datacenter == datacenter) := by
  have hrow : ∀ v, ((insertedRow now args v).kvkey == key
      && (insertedRow now args v).datacenter == datacenter) = false := by
    intro v
    simp only [insertedRow, Bool.and_eq_false_imp, beq_iff_eq, beq_eq_false_iff_ne]
    intro hk hd
    exact h ⟨hk, hd⟩
  unfold changeKV
  split
  · rfl
  · split
    · rfl
    · split
      · rfl
      · split
        · simp [List.filter_append, hrow]
        · split <;> simp [List.filter_append, hrow]

/-- A fault-free set on `(key, datacenter)` whose rows are all live and carry
the versions `1 .. m` returns `m + 1` and appends the row of that version. -/
theorem changeKV_next (key datacenter : String) (now : Nat) (tbl : Table) (args : KVSRequest)
    (m : Nat) (hk : args.DirEnt.Key = key) (hd : args.Datacenter = datacenter)
    (hv : versionsOf tbl key datacenter = (List.range' 1 m).map Int.ofNat)
    (hlive : ∀ r ∈ tbl.filter (fun r => r.kvkey == key && r.datacenter == datacenter),
      r.deleted = false) :
    changeKV Faults.none now tbl args
      = (GoResult.ret ((m : Int) + 1, none), tbl ++ [insertedRow now args ((m : Int) + 1)]) := by
  have hfilter : tbl.filter (fun r => r.kvkey == key && r.datacenter == datacenter && !r.deleted)
      = tbl.filter (fun r => r.kvkey == key && r.datacenter == datacenter) := by
    apply List.filter_congr
    intro r hr
    cases hp : (r.kvkey == key && r.datacenter == datacenter) with
    | false => simp
    | true =>
      have := hlive r (List.mem_filter.mpr ⟨hr, hp⟩)
      simp [this]
  have hq : maxVersionQuery tbl key datacenter = if m = 0 then none else some ((m : Int)) := by
    unfold maxVersionQuery
    rw [hfilter]
    have := sqlMax_range 1 m
    unfold versionsOf at hv
    rw [hv, this]
    by_cases hm : m = 0
    · simp [hm]
    · simp only [hm, if_false, Option.some.injEq]
      push_cast
      omega
  have hg : getVersion Faults.none tbl args.DirEnt.Key args.Datacenter = ((m : Int) + 1, none) := by
    rw [getVersion_eq Faults.none tbl _ _ rfl rfl, hk, hd, hq]
    by_cases hm : m = 0
    · simp [hm]
    · simp [hm]
  unfold changeKV
  rw [hg]
  rfl

theorem runSets_versions_from (key datacenter : String) :
    ∀ (ops : List SetOp) (tbl : Table) (m : Nat),
      versionsOf tbl key datacenter = (List.range' 1 m).map Int.ofNat →
      (∀ r ∈ tbl.filter (fun r => r.kvkey == key && r.datacenter == datacenter),
        r.deleted = false) →
      (∀ op ∈ ops, op.targets key datacenter = true → op.faults = Faults.none) →
      resultsOn key datacenter ops (runSets tbl ops).1
        = (List.range' (m + 1) (ops.countP (SetOp.targets key datacenter))).map
            (fun i => GoResult.ret (Int.ofNat i, none)) ∧
      versionsOf (runSets tbl ops).2 key datacenter
        = (List.range' 1 (m + ops.countP (SetOp.targets key datacenter))).map Int.ofNat := by
  intro ops
  induction ops with
  | nil =>
    intro tbl m hv _ _
    simp [resultsOn, runSets, hv]
  | cons op ops ih =>
    intro tbl m hv hlive hf
    have hf1 : ∀ o ∈ ops, o.targets key datacenter = true → o.faults = Faults.none :=
      fun o ho => hf o (List.mem_cons_of_mem _ ho)
    cases ht : op.targets key datacenter with
    | false =>
      have hne : ¬ (op.args.DirEnt.Key = key ∧ op.args.Datacenter = datacenter) := by
        intro h
        simp [SetOp.targets, h.1, h.2] at ht
      have hsame := changeKV_other_rows key datacenter op.faults op.now tbl op.args hne
      have hv1 : versionsOf (changeKV op.faults op.now tbl op.args).2 key datacenter
          = (List.range' 1 m).map Int.ofNat := by
        unfold versionsOf
        rw [hsame]
        exact hv
      have hlive1 : ∀ r ∈ (changeKV op.faults op.now tbl op.args).2.filter
          (fun r => r.kvkey == key && r.datacenter == datacenter), r.deleted = false := by
        rw [hsame]
        exact hlive
      obtain ⟨ih1, ih2⟩ := ih _ m hv1 hlive1 hf1
      refine ⟨?_, ?_⟩
      · simp only [resultsOn, runSets, List.zip_cons_cons, List.countP_cons, ht]
        simp only [resultsOn] at ih1
        simpa [List.filter_cons, ht] using ih1
      · simp only [runSets, List.countP_cons, ht]
        simpa using ih2
    | true =>
      have hkd : op.args.DirEnt.Key = key ∧ op.args.Datacenter = datacenter := by
        simpa [SetOp.targets] using ht
      have hstep := changeKV_next key datacenter op.now tbl op.args m hkd.1 hkd.2 hv hlive
      rw [← hf op (List.mem_cons_self _ _) ht] at hstep
      have hv1 : versionsOf (changeKV op.faults op.now tbl op.args).2 key datacenter
          = (List.range' 1 (m + 1)).map Int.ofNat := by
        rw [hstep]
        unfold versionsOf at hv ⊢
        simp only [List.filter_append, List.map_append, hv, List.range'_1_concat]
        simp [insertedRow, hkd.1, hkd.2]
        omega
      have hlive1 : ∀ r ∈ (changeKV op.faults op.now tbl op.args).2.filter
          (fun r => r.kvkey == key && r.datacenter == datacenter), r.deleted = false := by
        rw [hstep]
        intro r hr
        simp only [List.filter_append, List.mem_append] at hr
        rcases hr with hr | hr
        · exact hlive r hr
        · have := (List.mem_filter.mp hr).1
          simp only [List.mem_singleton] at this
          rw [this]
          rfl
      obtain ⟨ih1, ih2⟩ := ih _ (m + 1) hv1 hlive1 hf1
      refine ⟨?_, ?_⟩
      · simp only [resultsOn, runSets, List.zip_cons_cons, List.countP_cons, ht]
        simp only [resultsOn] at ih1
        simp only [List.filter_cons, ht, if_true, List.map_cons, ih1]
        rw [hstep]
        simp [List.range'_succ]
      · simp only [runSets, List.countP_cons, ht, if_true]
        rw [ih2]
        congr 2
        omega

/-- C3: in a serialized run of `changeKV` calls that starts from a table
without rows of `(key, datacenter)`, and in which the driver reports no
failure on the sets on `(key, datacenter)`, the i-th such set returns version
`i` without error, and the rows of `(key, datacenter)` in the final table
carry the versions `1, 2, .., n` in insertion order, `n` being the number of
sets on `(key, datacenter)`; the sets on other keys or datacenters interleaved
in the run, failing or not, do not change this. -/
theorem runSets_versions (key datacenter : String) (tbl : Table) (ops : List SetOp)
    (h0 : ∀ r ∈ tbl, ¬ (r.kvkey = key ∧ r.datacenter = datacenter))
    (hf : ∀ op ∈ ops, op.targets key datacenter = true → op.faults = Faults.none) :
    resultsOn key datacenter ops (runSets tbl ops).1
      = (List.range' 1 (ops.countP (SetOp.targets key datacenter))).map
          (fun i => GoResult.ret (Int.ofNat i, none)) ∧
    versionsOf (runSets tbl ops).2 key datacenter
      = (List.range' 1 (ops.countP (SetOp.targets key datacenter))).map Int.ofNat := by
  have hempty : tbl.filter (fun r => r.kvkey == key && r.datacenter == datacenter) = [] := by
    rw [List.filter_eq_nil_iff]
    intro r hr
    have := h0 r hr
    simpa using this
  have hv : versionsOf tbl key datacenter = (List.range' 1 0).map Int.ofNat := by
    simp [versionsOf, hempty]
  have hlive : ∀ r ∈ tbl.filter (fun r => r.kvkey == key && r.datacenter == datacenter),
      r.deleted = false := by
    rw [hempty]
    intro r hr
    cases hr
  have := runSets_versions_from key datacenter ops tbl 0 hv hlive hf
  simpa using this

/-- C3 on the run `Sample.interleaved` from the table `Sample.otherRows`: the
two sets on `(k1, dc1)` return the versions 1 and 2. -/
theorem runSets_versions_witness :
    (∀ r ∈ Sample.otherRows, ¬ (r.kvkey = "k1" ∧ r.datacenter = "dc1")) ∧
    (∀ op ∈ Sample.interleaved, op.targets "k1" "dc1" = true → op.faults = Faults.none) ∧
    resultsOn "k1" "dc1" Sample.interleaved (runSets Sample.otherRows Sample.interleaved).1
      = [GoResult.ret (1, none), GoResult.ret (2, none)] ∧
    versionsOf (runSets Sample.otherRows Sample.interleaved).2 "k1" "dc1" = [1, 2] := by
  have hf : ∀ op ∈ Sample.interleaved, op.targets "k1" "dc1" = true → op.faults = Faults.none := by
    intro op hop ht
    simp only [Sample.interleaved, List.mem_cons, List.mem_singleton, List.not_mem_nil,
      or_false] at hop
    rcases hop with h | h | h
    · rw [h]
    · rw [h] at ht
      exact absurd ht (by decide)
    · rw [h]
  exact ⟨by decide, hf, runSets_versions "k1" "dc1" Sample.otherRows Sample.interleaved
    (by decide) hf⟩

/-! ### The fallback decision of `KVSGet` -/

/-- The fallback branch of `KVSGet` always opens the connection or queries it. -/
theorem KVSGet_fallback_calls (env : Env) (st : State) (params : Values) (args : KeyRequest)
    (hr : params.has "recurse" = false) (hkey : args.Key ≠ "")
    (hrpc : env.rpc "KVS.Get" args = Except.error errNoServers) :
    ((KVSGet env st params args).2.2.calls.drop st.calls.length).any Call.isFallback = true := by
  unfold KVSGet
  simp only [hr, Bool.false_eq_true, if_false, missingKey, hkey, beq_iff_eq, hrpc]
  cases hdb : st.db with
  | none =>
    cases ho : env.openErr with
    | some oe => simp [IsAuditorOpen, OpenAuditor, GetKV, hdb, ho, errNoServers, Call.isFallback]
    | none =>
      cases hq : env.queryErr <;>
        simp [IsAuditorOpen, OpenAuditor, GetKV, hdb, ho, hq, errNoServers, Call.isFallback]
  | some c =>
    cases hc : c.closed <;> cases hq : env.queryErr <;>
      simp [IsAuditorOpen, OpenAuditor, GetKV, hdb, hc, hq, errNoServers, Call.isFallback]

/-- An RPC of `KVSGet` that fails, but not with the no-servers text on a plain
get, ends the handler with that error and nothing else done. -/
theorem KVSGet_other_failure (env : Env) (st : State) (params : Values) (args : KeyRequest)
    (e : String) (hcall : params.has "recurse" = true ∨ args.Key ≠ "")
    (hrpc : env.rpc (if params.has "recurse" then "KVS.List" else "KVS.Get") args
      = Except.error e)
    (hne : ¬ (params.has "recurse" = false ∧ e = errNoServers)) :
    KVSGet env st params args
      = (GoResult.ret { out := none, err := some e }, Resp.empty,
         { st with calls := st.calls ++
            [Call.rpc (if params.has "recurse" then "KVS.List" else "KVS.Get")] }) := by
  cases hr : params.has "recurse" with
  | true =>
    simp only [hr, if_true] at hrpc
    unfold KVSGet
    simp [hr, hrpc]
  | false =>
    have hkey : args.Key ≠ "" := by
      rcases hcall with h | h
      · rw [hr] at h; cases h
      · exact h
    simp only [hr, Bool.false_eq_true, if_false] at hrpc
    have he : e ≠ errNoServers := fun h => hne ⟨hr, h⟩
    have he1 : (e == "No known Consul servers") = false := by
      simpa [errNoServers] using he
    unfold KVSGet
    simp [hr, missingKey, hkey, hrpc, he1]

/-- A successful RPC of `KVSGet` is followed by no call of the fallback
branch. -/
theorem KVSGet_success_calls (env : Env) (st : State) (params : Values) (args : KeyRequest)
    (entries : List DirEntry) (hcall : params.has "recurse" = true ∨ args.Key ≠ "")
    (hrpc : env.rpc (if params.has "recurse" then "KVS.List" else "KVS.Get") args
      = Except.ok entries) :
    ((KVSGet env st params args).2.2.calls.drop st.calls.length).any Call.isFallback = false := by
  have hmk : (if params.has "recurse" = true then (false, Resp.empty)
      else missingKey Resp.empty args) = (false, Resp.empty) := by
    cases hr : params.has "recurse" with
    | true => simp
    | false =>
      have hkey : args.Key ≠ "" := by
        rcases hcall with h | h
        · rw [hr] at h; cases h
        · exact h
      simp [missingKey, hkey]
  unfold KVSGet
  simp only [hmk, hrpc, Bool.false_eq_true, if_false]
  cases hdb : st.db with
  | none => simp [IsAuditorOpen, hdb, Call.isFallback]
  | some c =>
    cases hc : c.closed <;> cases hce : env.closeErr <;>
      simp [IsAuditorOpen, CloseAuditor, hdb, hc, hce, Call.isFallback]

/-- C5: `KVSGet` enters its fallback branch (it opens or queries the audit
connection) if and only if the request is a plain get (no `recurse`) whose
RPC is made (the key is not empty) and fails with exactly the text "No known
Consul servers".  When the RPC is made and fails with text `e` in any other
way (another text, or that text with `recurse`), `KVSGet` returns `(nil, e)`
with the same text, writes nothing to the response, leaves the variable `db`
as it was and makes no call besides the RPC: no open, close or query. -/
theorem KVSGet_fallback_iff (env : Env) (st : State) (params : Values) (args : KeyRequest) :
    (((KVSGet env st params args).2.2.calls.drop st.calls.length).any Call.isFallback = true
      ↔ (params.has "recurse" = false ∧ args.Key ≠ ""
          ∧ env.rpc "KVS.Get" args = Except.error errNoServers)) ∧
    (∀ e : String, (params.has "recurse" = true ∨ args.Key ≠ "") →
      env.rpc (if params.has "recurse" then "KVS.List" else "KVS.Get") args = Except.error e →
      ¬ (params.has "recurse" = false ∧ e = errNoServers) →
      KVSGet env st params args
          = (GoResult.ret { out := none, err := some e }, Resp.empty,
             { st with calls := st.calls ++
                [Call.rpc (if params.has "recurse" then "KVS.List" else "KVS.Get")] }) ∧
      ((KVSGet env st params args).2.2.calls.drop st.calls.length).any Call.onAuditor = false) := by
  have hother : ∀ e : String, (params.has "recurse" = true ∨ args.Key ≠ "") →
      env.rpc (if params.has "recurse" then "KVS.List" else "KVS.Get") args = Except.error e →
      ¬ (params.has "recurse" = false ∧ e = errNoServers) →
      KVSGet env st params args
          = (GoResult.ret { out := none, err := some e }, Resp.empty,
             { st with calls := st.calls ++
                [Call.rpc (if params.has "recurse" then "KVS.List" else "KVS.Get")] }) ∧
      ((KVSGet env st params args).2.2.calls.drop st.calls.length).any Call.onAuditor
        = false := by
    intro e hcall hrpc hne
    have hk := KVSGet_other_failure env st params args e hcall hrpc hne
    refine ⟨hk, ?_⟩
    rw [hk]
    simp [Call.onAuditor]
  refine ⟨⟨?_, ?_⟩, hother⟩
  · intro hfb
    by_cases hcall : params.has "recurse" = true ∨ args.Key ≠ ""
    · cases hres : env.rpc (if params.has "recurse" then "KVS.List" else "KVS.Get") args with
      | ok entries =>
        rw [KVSGet_success_calls env st params args entries hcall hres] at hfb
        cases hfb
      | error e =>
        by_cases hne : params.has "recurse" = false ∧ e = errNoServers
        · obtain ⟨hr, he⟩ := hne
          subst he
          have hkey : args.Key ≠ "" := by
            rcases hcall with h | h
            · rw [hr] at h; cases h
            · exact h
          simp only [hr, Bool.false_eq_true, if_false] at hres
          exact ⟨hr, hkey, hres⟩
        · rw [(hother e hcall hres hne).1] at hfb
          simp [Call.isFallback] at hfb
    · have hr : params.has "recurse" = false := by
        cases h : params.has "recurse" with
        | true => exact absurd (Or.inl h) hcall
        | false => rfl
      have hkey : args.Key = "" := by
        by_contra h
        exact hcall (Or.inr h)
      have hk : (KVSGet env st params args).2.2 = st := by
        unfold KVSGet
        simp [hr, missingKey, hkey]
      rw [hk] at hfb
      simp at hfb
  · rintro ⟨hr, hkey, hrpc⟩
    exact KVSGet_fallback_calls env st params args hr hkey hrpc

/-- C5 on a plain get whose RPC fails with "No cluster leader": the error is
returned and the connection is left alone. -/
theorem KVSGet_fallback_iff_witness :
    (Values.has [] "recurse" = true ∨ Sample.getK1.Key ≠ "") ∧
    (Sample.env [] (Except.error "No cluster leader")).rpc
        (if Values.has [] "recurse" then "KVS.List" else "KVS.Get") Sample.getK1
      = Except.error "No cluster leader" ∧
    ¬ (Values.has [] "recurse" = false ∧ "No cluster leader" = errNoServers) ∧
    KVSGet (Sample.env [] (Except.error "No cluster leader")) State.init [] Sample.getK1
      = (GoResult.ret { out := none, err := some "No cluster leader" }, Resp.empty,
         { db := none, calls := [Call.rpc "KVS.Get"] }) :=
  ⟨Or.inr (by decide), rfl, by decide,
    ((KVSGet_fallback_iff (Sample.env [] (Except.error "No cluster leader")) State.init []
      Sample.getK1).2 "No cluster leader" (Or.inr (by decide)) rfl (by decide)).1⟩


/-! ### What holds of the delete operations -/

theorem suffixes_any_isEmpty (s : List Char) :
    (suffixes s).any (fun t => t.isEmpty) = true := by
  induction s with
  | nil => simp [suffixes]
  | cons c cs ih =>
    simp only [suffixes, List.any_cons, ih, Bool.or_true]

/-- A pattern `p%` whose `p` has neither `%` nor `_` matches the strings that
start with `p`. -/
theorem sqlLike_plain_key (p s : List Char) (hp : ∀ c ∈ p, c ≠ '%' ∧ c ≠ '_') :
    sqlLike (p ++ ['%']) s = p.isPrefixOf s := by
  induction p generalizing s with
  | nil =>
    have h := suffixes_any_isEmpty s
    simp only [List.nil_append, sqlLike, if_true, List.isPrefixOf, h]
  | cons c cs ih =>
    have hc := hp c (List.mem_cons_self _ _)
    have hcs : ∀ d ∈ cs, d ≠ '%' ∧ d ≠ '_' := fun d hd => hp d (List.mem_cons_of_mem _ hd)
    cases s with
    | nil => simp [sqlLike, hc.1, List.isPrefixOf]
    | cons d ds =>
      have ih1 := ih ds hcs
      simp only [List.cons_append, sqlLike, hc.1, if_false, List.isPrefixOf]
      simp only [List.append_eq] at ih1 ⊢
      rw [ih1]
      simp only [hc.2, decide_False, Bool.false_or]
      rfl

/-- For a key without `%` and `_`, `deleteKVTree` marks the rows of the
datacenter whose key starts with the key of the request, and no other row. -/
theorem deleteKVTree_plain_key (tbl : Table) (args : KVSRequest)
    (hp : ∀ c ∈ args.DirEnt.Key.toList, c ≠ '%' ∧ c ≠ '_') :
    deleteKVTree Faults.none tbl args
      = (none, markDeleted
          (fun r => Spec.literalPrefix args.DirEnt.Key r.kvkey && r.datacenter == args.Datacenter)
          tbl) := by
  unfold deleteKVTree
  simp only [Faults.none, likeLiteral, Spec.literalPrefix]
  congr 2
  funext r
  rw [sqlLike_plain_key _ _ hp]

/-- After `deleteKV` of a key in a datacenter, `GetKV` of that key and
datacenter on an open connection returns the empty entry. -/
theorem GetKV_after_deleteKV (env : Env) (st : State) (tbl : Table) (args : KVSRequest)
    (hdb : st.db = some { closed := false }) (hq : env.queryErr = none)
    (ht : env.table = (deleteKV Faults.none tbl args).2) :
    (GetKV env st args.DirEnt.Key args.Datacenter).1 = GoResult.ret (DirEntry.zero, none) := by
  have hrows : getKVQuery env.table args.DirEnt.Key args.Datacenter = [] := by
    unfold getKVQuery
    have : List.filter (fun r => r.kvkey == args.DirEnt.Key
        && some r.version == sqlMax ((env.table.filter (fun r => r.kvkey == args.DirEnt.Key)).map
            (fun r => r.version))
        && r.datacenter == args.Datacenter && !r.deleted) env.table = [] := by
      rw [List.filter_eq_nil_iff]
      intro r hr
      rw [ht] at hr
      simp only [deleteKV, Faults.none, markDeleted, List.mem_map] at hr
      obtain ⟨r0, _, hr0⟩ := hr
      by_cases hc : (r0.kvkey == args.DirEnt.Key && r0.datacenter == args.Datacenter) = true
      · rw [if_pos hc] at hr0
        subst hr0
        simp
      · rw [if_neg hc] at hr0
        subst hr0
        simp only [Bool.and_eq_true, beq_iff_eq, not_and] at hc
        simp only [Bool.and_eq_true, beq_iff_eq, Bool.not_eq_true', not_and]
        intro h1 _
        exact hc h1.1.1 h1.2
    simp only [this]
    rfl
  unfold GetKV
  simp [hdb, hq, hrows]

/-! ### What holds of `changeKV` when `Exec` does not fail -/

/-- A failed version query is returned as the error of `changeKV`; nothing is
written. -/
theorem changeKV_query_failure (f : Faults) (now : Nat) (tbl : Table) (args : KVSRequest)
    (e : String) (hq : f.queryErr = some e) :
    changeKV f now tbl args = (GoResult.ret (-1, some e), tbl) := by
  unfold changeKV getVersion
  simp [hq]

/-- A failed `Prepare` is returned as the error of `changeKV`; nothing is
written. -/
theorem changeKV_prepare_failure (f : Faults) (now : Nat) (tbl : Table) (args : KVSRequest)
    (e : String) (hq : f.queryErr = none) (hs : f.scanErr = none) (hp : f.prepareErr = some e) :
    changeKV f now tbl args = (GoResult.ret (-1, some e), tbl) := by
  unfold changeKV
  rw [getVersion_eq f tbl _ _ hq hs]
  simp [hp]

/-- After an `Exec` that went through, `changeKV` returns the allocated
version without error when one row is reported, and `-1` with an error when
another number is reported. -/
theorem changeKV_rows_affected (f : Faults) (now : Nat) (tbl : Table) (args : KVSRequest)
    (n : Int) (hq : f.queryErr = none) (hs : f.scanErr = none) (hp : f.prepareErr = none)
    (hx : f.execErr = none) (hn : f.rowsAffected = Except.ok n) :
    (n = 1 → (changeKV f now tbl args).1
      = GoResult.ret ((getVersion f tbl args.DirEnt.Key args.Datacenter).1, none)) ∧
    (n ≠ 1 → (changeKV f now tbl args).1
      = GoResult.ret (-1, some ("Affected rows should be 1 but is " ++ stringOfInt n))) := by
  have hg := getVersion_eq f tbl args.DirEnt.Key args.Datacenter hq hs
  constructor
  · intro h1
    unfold changeKV
    rw [hg]
    simp [hp, hx, hn, h1]
  · intro h1
    unfold changeKV
    rw [hg]
    simp [hp, hx, hn, h1]

/-! ### What holds of the fallback read -/

theorem mem_insertByTimestampDesc (r x : Row) (l : List Row) :
    x ∈ insertByTimestampDesc r l ↔ x = r ∨ x ∈ l := by
  induction l with
  | nil => simp [insertByTimestampDesc]
  | cons y ys ih =>
    unfold insertByTimestampDesc
    split
    · simp
    · simp only [List.mem_cons, ih]
      tauto

theorem mem_orderByTimestampDesc (x : Row) (l : List Row) :
    x ∈ orderByTimestampDesc l ↔ x ∈ l := by
  induction l with
  | nil => simp [orderByTimestampDesc]
  | cons y ys ih => simp [orderByTimestampDesc, mem_insertByTimestampDesc, ih]

/-- Scanning rows one after another into the same entry leaves the empty
entry on no rows and otherwise the columns of one of the rows. -/
theorem foldl_scanEntry (rows : List Row) (e : DirEntry) :
    rows.foldl scanEntry e = e ∨ ∃ r ∈ rows, rows.foldl scanEntry e = scanEntry e r := by
  induction rows generalizing e with
  | nil => exact Or.inl rfl
  | cons r rs ih =>
    right
    rcases ih (scanEntry e r) with h | ⟨r1, hr1, h⟩
    · exact ⟨r, List.mem_cons_self _ _, by simpa using h⟩
    · refine ⟨r1, List.mem_cons_of_mem _ hr1, ?_⟩
      simp only [List.foldl_cons, h]
      rfl

/-- Whatever the audit table holds, a plain get that fails over returns no
entry or the single entry of a non-deleted row whose key is the requested key
and whose datacenter is the requested one. -/
theorem KVSGet_fallback_single_entry (env : Env) (st : State) (params : Values)
    (args : KeyRequest) (es : List DirEntry) (hr : params.has "recurse" = false)
    (hkey : args.Key ≠ "") (hrpc : env.rpc "KVS.Get" args = Except.error errNoServers)
    (hout : (KVSGet env st params args).1 = GoResult.ret { out := some es, err := none }) :
    ∃ r ∈ env.table, r.kvkey = args.Key ∧ r.datacenter = args.Datacenter ∧ r.deleted = false ∧
      es = [scanEntry DirEntry.zero r] := by
  have hfold := foldl_scanEntry (getKVQuery env.table args.Key args.Datacenter) DirEntry.zero
  have hmem : ∀ r ∈ getKVQuery env.table args.Key args.Datacenter,
      r ∈ env.table ∧ r.kvkey = args.Key ∧ r.datacenter = args.Datacenter ∧ r.deleted = false := by
    intro r hr
    unfold getKVQuery at hr
    rw [mem_orderByTimestampDesc, List.mem_filter] at hr
    obtain ⟨h1, h2⟩ := hr
    simp only [Bool.and_eq_true, beq_iff_eq, Bool.not_eq_true'] at h2
    exact ⟨h1, h2.1.1.1, h2.1.2, h2.2⟩
  have hzero : DirEntry.zero.Key = "" := rfl
  unfold KVSGet at hout
  simp only [hr, Bool.false_eq_true, if_false, missingKey, hkey, beq_iff_eq, hrpc] at hout
  rcases hfold with h0 | ⟨r, hrm, hfr⟩
  · exfalso
    cases hdb : st.db with
    | none =>
      cases ho : env.openErr with
      | some oe => simp [IsAuditorOpen, OpenAuditor, GetKV, hdb, ho, errNoServers] at hout
      | none =>
        cases hq : env.queryErr <;>
          simp [IsAuditorOpen, OpenAuditor, GetKV, hdb, ho, hq, errNoServers, h0, hzero,
            KVSGet.answer] at hout
    | some c =>
      cases hc : c.closed <;> cases hq : env.queryErr <;>
        simp [IsAuditorOpen, OpenAuditor, GetKV, hdb, hc, hq, errNoServers, h0, hzero,
          KVSGet.answer] at hout
  · obtain ⟨hr1, hr2, hr3, hr4⟩ := hmem r hrm
    refine ⟨r, hr1, hr2, hr3, hr4, ?_⟩
    have hk : (scanEntry DirEntry.zero r).Key ≠ "" := by
      show r.kvkey ≠ ""
      rw [hr2]
      exact hkey
    cases hdb : st.db with
    | none =>
      cases ho : env.openErr with
      | some oe => simp [IsAuditorOpen, OpenAuditor, GetKV, hdb, ho, errNoServers] at hout
      | none =>
        cases hq : env.queryErr with
        | some qe => simp [IsAuditorOpen, OpenAuditor, GetKV, hdb, ho, hq, errNoServers] at hout
        | none =>
          cases hraw : params.has "raw" <;>
            simp [IsAuditorOpen, OpenAuditor, GetKV, hdb, ho, hq, errNoServers, hfr, hk,
              KVSGet.answer, hraw] at hout
          exact hout.symm
    | some c =>
      cases hc : c.closed with
      | true => simp [IsAuditorOpen, GetKV, hdb, hc, errNoServers] at hout
      | false =>
        cases hq : env.queryErr with
        | some qe => simp [IsAuditorOpen, GetKV, hdb, hc, hq, errNoServers] at hout
        | none =>
          cases hraw : params.has "raw" <;>
            simp [IsAuditorOpen, GetKV, hdb, hc, hq, errNoServers, hfr, hk,
              KVSGet.answer, hraw] at hout
          exact hout.symm

/-- A plain get of a key without any row in the audit table, failing over on
a connection that opens and answers, is answered 404 with nil result and nil
error. -/
theorem KVSGet_fallback_never_audited (env : Env) (params : Values) (args : KeyRequest)
    (hr : params.has "recurse" = false) (hkey : args.Key ≠ "")
    (hrpc : env.rpc "KVS.Get" args = Except.error errNoServers)
    (ho : env.openErr = none) (hq : env.queryErr = none)
    (hnone : ∀ r ∈ env.table, r.kvkey ≠ args.Key) :
    (KVSGet env State.init params args).1 = GoResult.ret { out := none, err := none } ∧
    (KVSGet env State.init params args).2.1.status = some 404 := by
  have hrows : getKVQuery env.table args.Key args.Datacenter = [] := by
    unfold getKVQuery
    have : ∀ p : Row → Bool, List.filter (fun r => r.kvkey == args.Key && p r) env.table = [] := by
      intro p
      rw [List.filter_eq_nil_iff]
      intro r hr
      simp [hnone r hr]
    simp only [Bool.and_assoc, this]
    rfl
  have hzero : DirEntry.zero.Key = "" := rfl
  unfold KVSGet
  simp [hr, missingKey, hkey, hrpc, IsAuditorOpen, OpenAuditor, GetKV, State.init, ho, hq,
    errNoServers, hrows, hzero, KVSGet.answer]

end Audit
